import Mathlib

/-!
Shallow embedding of the session-management subsystem of the repository:
`app/session_store.py` (volatile in-memory backend), `app/db_session_store.py`
together with the `Session` model of `app/models.py` (persistent backend),
`app/security.py` (SecurityManager and the session authenticator) and
`app/routers/secure_auth.py` (session-management route handlers).

Time is modelled in whole seconds as `Nat`: every `datetime.now()` /
`time.time()` inside one operation call becomes a single explicit `now : Nat`
parameter, and `timedelta(minutes=m)` becomes `60 * m`.  Randomly generated
session ids (`str(uuid.uuid4())`) are modelled by a caller-supplied `sid`
argument; where a whole run is modelled, ids are drawn from an injective
generator, mirroring uuid4's freshness.
-/

/-! ## Volatile backend: `app/session_store.py` -/

/-- The per-session dict stored in `SessionStore._sessions`
(session_store.py:26-31): keys `user_email`, `created_at`, `expires_at`,
`last_accessed`. -/
structure MemRecord where
  user_email : String
  created_at : Nat
  expires_at : Nat
  last_accessed : Nat
deriving DecidableEq, Repr

/-- Python-dict lookup on an association list (first matching key). -/
def dictLookup (l : List (String × MemRecord)) (k : String) : Option MemRecord :=
  match l with
  | [] => none
  | (k', v) :: rest => if k' = k then some v else dictLookup rest k

/-- Python-dict assignment: overwrite in place if the key exists, else append
(insertion order is preserved, as for a Python dict). -/
def dictSet (l : List (String × MemRecord)) (k : String) (v : MemRecord) :
    List (String × MemRecord) :=
  match l with
  | [] => [(k, v)]
  | (k', v') :: rest => if k' = k then (k, v) :: rest else (k', v') :: dictSet rest k v

/-- Python-dict `del`: remove the (unique) entry with the given key. -/
def dictRemove (l : List (String × MemRecord)) (k : String) :
    List (String × MemRecord) :=
  match l with
  | [] => []
  | (k', v') :: rest => if k' = k then rest else (k', v') :: dictRemove rest k

/-- State of `SessionStore` (session_store.py:15-19): the sessions dict plus
the `_last_cleanup` timestamp; `_cleanup_interval` is the constant 300 s. -/
structure MemStore where
  sessions : List (String × MemRecord)
  last_cleanup : Nat
deriving DecidableEq, Repr

/-- `SessionStore._cleanup_expired_sessions` (session_store.py:87-109):
rate-gated sweep that deletes entries with `now > expires_at`, but only if at
least 300 seconds have passed since the previous sweep. -/
def memCleanup (st : MemStore) (now : Nat) : MemStore :=
  if now - st.last_cleanup < 300 then st
  else
    { sessions := st.sessions.filter (fun e => ! decide (now > e.2.expires_at)),
      last_cleanup := now }

/-- `SessionStore.create_session` (session_store.py:21-35): insert a fresh
record, run the rate-gated cleanup, return the new id.  `sid` stands for
`str(uuid.uuid4())`. -/
def memCreate (st : MemStore) (now : Nat) (sid : String) (user_email : String)
    (expires_in_minutes : Nat := 30) : String × MemStore :=
  let r : MemRecord :=
    { user_email := user_email, created_at := now,
      expires_at := now + 60 * expires_in_minutes, last_accessed := now }
  let st1 : MemStore := { st with sessions := dictSet st.sessions sid r }
  (sid, memCleanup st1 now)

/-- `SessionStore.delete_session` (session_store.py:54-61): delete the entry if
present; the returned Bool says whether one was found. -/
def memDelete (st : MemStore) (sid : String) : Bool × MemStore :=
  match dictLookup st.sessions sid with
  | some _ => (true, { st with sessions := dictRemove st.sessions sid })
  | none => (false, st)

/-- `SessionStore.get_session` (session_store.py:37-52): `None` for a falsy or
unknown id; delete-and-`None` when `now > expires_at`; otherwise update
`last_accessed` and return the (mutated) record. -/
def memGet (st : MemStore) (now : Nat) (sid : String) : Option MemRecord × MemStore :=
  if sid = "" then (none, st)
  else
    match dictLookup st.sessions sid with
    | none => (none, st)
    | some r =>
      if now > r.expires_at then (none, (memDelete st sid).2)
      else
        let r' := { r with last_accessed := now }
        (some r', { st with sessions := dictSet st.sessions sid r' })

/-- `SessionStore.delete_user_sessions` (session_store.py:63-74): collect the
ids whose record has this `user_email`, delete each, return how many.  Since
dict keys are unique, deleting the collected ids keeps exactly the entries
with a different `user_email`. -/
def memDeleteUser (st : MemStore) (user_email : String) : Nat × MemStore :=
  let toDelete := st.sessions.filter (fun e => decide (e.2.user_email = user_email))
  (toDelete.length,
   { st with sessions := st.sessions.filter (fun e => ! decide (e.2.user_email = user_email)) })

/-- `SessionStore.extend_session` (session_store.py:76-85).  Note: the source
checks only membership (`session_id not in self._sessions`), not expiry,
before setting `expires_at = now + minutes`. -/
def memExtend (st : MemStore) (now : Nat) (sid : String)
    (additional_minutes : Nat := 30) : Bool × MemStore :=
  match dictLookup st.sessions sid with
  | none => (false, st)
  | some r =>
    let r' := { r with expires_at := now + 60 * additional_minutes, last_accessed := now }
    (true, { st with sessions := dictSet st.sessions sid r' })

/-- The summary dict returned by both backends' `get_user_sessions`: keys
`session_id`, `created_at`, `last_accessed`, `expires_at`. -/
structure SessionSummary where
  session_id : String
  created_at : Nat
  last_accessed : Nat
  expires_at : Nat
deriving DecidableEq, Repr

/-- `SessionStore.get_user_sessions` (session_store.py:116-127): summaries of
entries with this `user_email` and `now <= expires_at`. -/
def memUserSessions (st : MemStore) (now : Nat) (user_email : String) :
    List SessionSummary :=
  (st.sessions.filter
      (fun e => decide (e.2.user_email = user_email) && decide (now ≤ e.2.expires_at))).map
    (fun e => { session_id := e.1, created_at := e.2.created_at,
                last_accessed := e.2.last_accessed, expires_at := e.2.expires_at })

/-! ## Persistent backend: `app/db_session_store.py` and `app/models.py` -/

/-- A row of the `sessions` table (models.py:33-53).  The autoincrement
integer primary key is represented by the row's position in the list (rows
are appended in insertion order, which is also the default query order). -/
structure DbRow where
  session_id : String
  user_email : String
  created_at : Nat
  expires_at : Nat
  last_accessed : Nat
  is_active : Bool
deriving DecidableEq, Repr

/-- `Session.is_expired` (models.py:58-60): `datetime.now(timezone.utc) > self.expires_at`. -/
def DbRow.is_expired (r : DbRow) (now : Nat) : Bool :=
  decide (now > r.expires_at)

/-- `Session.extend_session` (models.py:62-65). -/
def DbRow.extend_session (r : DbRow) (now : Nat) (minutes : Nat) : DbRow :=
  { r with expires_at := now + 60 * minutes, last_accessed := now }

/-- In-place mutation of the first row matched by a query (`.first()` then
attribute assignment and commit). -/
def updateFirst (st : List DbRow) (p : DbRow → Bool) (f : DbRow → DbRow) : List DbRow :=
  match st with
  | [] => []
  | r :: rest => if p r then f r :: rest else r :: updateFirst rest p f

/-- `DatabaseSessionStore._cleanup_expired_sessions` (db_session_store.py:255-295):
deactivate every row with `expires_at < now` that is still active. -/
def dbCleanup (st : List DbRow) (now : Nat) : List DbRow :=
  st.map (fun r =>
    if r.expires_at < now ∧ r.is_active = true then { r with is_active := false } else r)

/-- `DatabaseSessionStore.create_session` (db_session_store.py:22-59): insert a
fresh active row (`created_at`/`last_accessed` take the server default
`func.now()`), then clean up expired rows; returns the new id.  `sid` stands
for `str(uuid.uuid4())`. -/
def dbCreate (st : List DbRow) (now : Nat) (sid : String) (user_email : String)
    (expires_in_minutes : Option Nat := none) : String × List DbRow :=
  let ttl := expires_in_minutes.getD 30
  let row : DbRow :=
    { session_id := sid, user_email := user_email, created_at := now,
      expires_at := now + 60 * ttl, last_accessed := now, is_active := true }
  (sid, dbCleanup (st ++ [row]) now)

/-- `DatabaseSessionStore.delete_session` (db_session_store.py:117-142): the
query filters on `session_id` only (not on `is_active`); if a row is found it
is deactivated and `True` is returned. -/
def dbDelete (st : List DbRow) (sid : String) : Bool × List DbRow :=
  if sid = "" then (false, st)
  else
    match st.find? (fun r => decide (r.session_id = sid)) with
    | some _ =>
      (true, updateFirst st (fun r => decide (r.session_id = sid))
        (fun r => { r with is_active := false }))
    | none => (false, st)

/-- The dict returned by `DatabaseSessionStore.get_session`
(db_session_store.py:108-115).  The volatile backend's `get_session` returns
the stored dict, which has no `session_id` key; that difference in the value
handed to the caller is captured by `session_id : Option String`. -/
structure GetResultDict where
  user_email : String
  created_at : Nat
  expires_at : Nat
  last_accessed : Nat
  session_id : Option String
deriving DecidableEq, Repr

/-- `DatabaseSessionStore.get_session` (db_session_store.py:61-115): query for
an active row with this id; `None` if absent; if expired, deactivate via
`delete_session` and return `None`; else touch `last_accessed` and return the
five-key dict. -/
def dbGet (st : List DbRow) (now : Nat) (sid : String) :
    Option GetResultDict × List DbRow :=
  if sid = "" then (none, st)
  else
    match st.find? (fun r => decide (r.session_id = sid) && r.is_active) with
    | none => (none, st)
    | some r =>
      if r.is_expired now then (none, (dbDelete st sid).2)
      else
        (some { user_email := r.user_email, created_at := r.created_at,
                expires_at := r.expires_at, last_accessed := now,
                session_id := some r.session_id },
         updateFirst st (fun r' => decide (r'.session_id = sid) && r'.is_active)
           (fun r' => { r' with last_accessed := now }))

/-- `DatabaseSessionStore.extend_session` (db_session_store.py:144-179): only
an active, unexpired row is renewed (via `Session.extend_session`); every
other case returns `False`. -/
def dbExtend (st : List DbRow) (now : Nat) (sid : String) (minutes : Nat := 30) :
    Bool × List DbRow :=
  if sid = "" then (false, st)
  else
    match st.find? (fun r => decide (r.session_id = sid) && r.is_active) with
    | none => (false, st)
    | some r =>
      if r.is_expired now then (false, st)
      else
        (true, updateFirst st (fun r' => decide (r'.session_id = sid) && r'.is_active)
          (fun r' => r'.extend_session now minutes))

/-- `DatabaseSessionStore.get_user_sessions` (db_session_store.py:181-219):
active rows of this user, post-filtered by `not s.is_expired()`. -/
def dbUserSessions (st : List DbRow) (now : Nat) (user_email : String) :
    List SessionSummary :=
  ((st.filter (fun r => decide (r.user_email = user_email) && r.is_active)).filter
      (fun r => ! r.is_expired now)).map
    (fun r => { session_id := r.session_id, created_at := r.created_at,
                expires_at := r.expires_at, last_accessed := r.last_accessed })

/-- `DatabaseSessionStore.delete_all_user_sessions` (db_session_store.py:221-253):
deactivate every active row of this user; the count of those rows is
returned. -/
def dbDeleteAllUser (st : List DbRow) (user_email : String) : Nat × List DbRow :=
  let matching := st.filter (fun r => decide (r.user_email = user_email) && r.is_active)
  (matching.length,
   st.map (fun r =>
     if r.user_email = user_email ∧ r.is_active = true then { r with is_active := false }
     else r))

/-! ## Security layer: `app/security.py` -/

/-- The two definitions of `extend_session` inside the `SecurityManager` class
body: the first (security.py:56-59) takes `(session_id, minutes, db)` and
forwards them to the store; the second (security.py:73-76) takes only
`session_id`. -/
inductive ExtendSessionDef
  | withMinutes
  | sidOnly
deriving DecidableEq, Repr

/-- The `extend_session` definitions in the order they appear in the
`SecurityManager` class body (security.py:57, security.py:74). -/
def securityExtendSessionDefs : List ExtendSessionDef :=
  [ExtendSessionDef.withMinutes, ExtendSessionDef.sidOnly]

/-- Python class-body semantics: a later binding of a method name replaces an
earlier one, so the effective `SecurityManager.extend_session` is the last
definition in the class body. -/
def effectiveExtendSessionDef : ExtendSessionDef :=
  securityExtendSessionDefs.getLastD ExtendSessionDef.withMinutes

/-- A raised Python exception, as seen by a route handler's
`except Exception`. -/
inductive PyErr
  | typeErr
deriving DecidableEq, Repr

/-- The call `security_manager.extend_session(session_id, minutes, db=db)`
made at secure_auth.py:332, resolved against the effective method: the
surviving definition accepts only `session_id`, so passing `minutes` and `db`
raises `TypeError`; only the shadowed first definition would have run
`DatabaseSessionStore.extend_session` with the requested minutes. -/
def callExtendSessionWithMinutes (st : List DbRow) (now : Nat) (sid : String)
    (minutes : Nat) : Except PyErr (Bool × List DbRow) :=
  match effectiveExtendSessionDef with
  | ExtendSessionDef.withMinutes => Except.ok (dbExtend st now sid minutes)
  | ExtendSessionDef.sidOnly => Except.error PyErr.typeErr

/-- Python `x or y` on two optional strings (`None` and `""` are falsy). -/
def pyOrStr (a b : Option String) : Option String :=
  match a with
  | some s => if s = "" then b else some s
  | none => b

/-- An HTTP error signal: status code plus the `detail` string. -/
structure HttpError where
  status : Nat
  detail : String
deriving DecidableEq, Repr

/-- The successful result of the session authenticator: principal, session id
and the session dict. -/
structure AuthSuccess where
  email : String
  session_id : String
  session_data : GetResultDict
deriving DecidableEq, Repr

def noSessionError : HttpError :=
  { status := 401, detail := "No session found. Please login." }

def invalidSessionError : HttpError :=
  { status := 401, detail := "Invalid or expired session. Please login again." }

/-- `get_current_user_session` (security.py:130-160): the id comes from the
cookie or, failing that, the header; a missing/falsy id is rejected with the
unauthenticated signal; an id the store resolves to absent is rejected with
the invalid-or-expired signal; a live id yields the principal. -/
def getCurrentUserSession (st : List DbRow) (now : Nat)
    (session_cookie session_header : Option String) :
    Except HttpError AuthSuccess × List DbRow :=
  match pyOrStr session_cookie session_header with
  | none => (Except.error noSessionError, st)
  | some sid =>
    if sid = "" then (Except.error noSessionError, st)
    else
      match dbGet st now sid with
      | (none, st') => (Except.error invalidSessionError, st')
      | (some d, st') =>
        (Except.ok { email := d.user_email, session_id := sid, session_data := d }, st')

/-! ## Route handlers: `app/routers/secure_auth.py` -/

/-- `get_current_user_for_session_ops` (secure_auth.py:14-33): the companion
guard used by `terminate_session`; same checks and signals, cookie only. -/
def getCurrentUserForSessionOps (st : List DbRow) (now : Nat)
    (user_session_cookie : Option String) :
    Except HttpError AuthSuccess × List DbRow :=
  match user_session_cookie with
  | none => (Except.error noSessionError, st)
  | some sid =>
    if sid = "" then (Except.error noSessionError, st)
    else
      match dbGet st now sid with
      | (none, st') => (Except.error invalidSessionError, st')
      | (some d, st') =>
        (Except.ok { email := d.user_email, session_id := sid, session_data := d }, st')

/-- A route handler's outcome: success, or one of the raised HTTP errors. -/
inductive HandlerOutcome
  | ok
  | httpError (e : HttpError)
deriving DecidableEq, Repr

def sessionNotFoundError : HttpError :=
  { status := 404, detail := "Session not found or doesn't belong to you" }

def cannotTerminateCurrentError : HttpError :=
  { status := 400, detail := "Cannot terminate current session. Use logout instead." }

def failedToTerminateError : HttpError :=
  { status := 500, detail := "Failed to terminate session" }

/-- `terminate_session` (secure_auth.py:226-273), with the acting user's email
and current session id supplied by the dependency: the target must appear in
`get_user_sessions` of the acting user (nonexistent, foreign and dead targets
alike get the 404), self-termination is rejected with a 400, and an owned
distinct live target is deactivated via `SecurityManager.delete_session`. -/
def terminateSession (st : List DbRow) (now : Nat) (acting_email acting_sid : String)
    (session_id : String) : HandlerOutcome × List DbRow :=
  let user_sessions := dbUserSessions st now acting_email
  match user_sessions.find? (fun s => decide (s.session_id = session_id)) with
  | none => (HandlerOutcome.httpError sessionNotFoundError, st)
  | some _ =>
    if session_id = acting_sid then
      (HandlerOutcome.httpError cannotTerminateCurrentError, st)
    else
      match dbDelete st session_id with
      | (true, st') => (HandlerOutcome.ok, st')
      | (false, st') => (HandlerOutcome.httpError failedToTerminateError, st')

def minutesRangeError : HttpError :=
  { status := 400, detail := "Minutes must be between 5 and 480" }

def failedToExtendError : HttpError :=
  { status := 400, detail := "Failed to extend session. Session may be expired or invalid." }

def internalServerError : HttpError :=
  { status := 500, detail := "Internal server error" }

/-- `extend_current_session` (secure_auth.py:309-353): `minutes` comes from the
request body (default 30) and is validated to the 5..480 range before any
store call; then the handler calls
`security_manager.extend_session(session_id, minutes, db=db)`, and its
`except Exception` turns any raised exception into a 500. -/
def extendCurrentSession (st : List DbRow) (now : Nat) (acting_sid : String)
    (minutes : Int := 30) : HandlerOutcome × List DbRow :=
  if minutes < 5 ∨ minutes > 480 then
    (HandlerOutcome.httpError minutesRangeError, st)
  else
    match callExtendSessionWithMinutes st now acting_sid minutes.toNat with
    | Except.error _ => (HandlerOutcome.httpError internalServerError, st)
    | Except.ok (true, st') => (HandlerOutcome.ok, st')
    | Except.ok (false, st') => (HandlerOutcome.httpError failedToExtendError, st')

/-! ## Credential verifier (spec section 4.1)

`SecurityManager.get_password_hash` / `verify_password` (security.py:31-39)
delegate to the external passlib `CryptContext` with the argon2 scheme; that
library's code is not part of this repository, so the verifier is modelled
from the spec's Credential Verifier contract. -/

/-- Modelled from the spec: the self-describing digest produced by
`hash(password)` — missing from src/, which only calls into passlib — built as
`"$argon2id$" ++ salt ++ "$" ++ tag`, embedding the algorithm name and the
salt; the memory-hard password-to-tag function is idealized as a
collision-free (injective) embedding of the password, here the password
itself. The salt drawn by the hasher never contains the `'$'` separator. -/
def mkDigest (salt : String) (password : String) : String :=
  "$argon2id$" ++ salt ++ "$" ++ password

/-- Strip an expected prefix from a character list; `none` when the list does
not start with it. -/
def dropPrefixChars (pre cs : List Char) : Option (List Char) :=
  match pre, cs with
  | [], rest => some rest
  | _ :: _, [] => none
  | p :: ps, c :: rest => if c = p then dropPrefixChars ps rest else none

/-- Split a character list at the first `'$'`: the part before it and the part
after it; `none` when there is no `'$'`. -/
def splitSalt (cs : List Char) : Option (List Char × List Char) :=
  match cs with
  | [] => none
  | c :: rest =>
    if c = '$' then some ([], rest)
    else
      match splitSalt rest with
      | some (s, b) => some (c :: s, b)
      | none => none

/-- Modelled from the spec: `verify(password, digest)` — missing from src/,
which only calls into passlib — parses the self-describing digest and compares
its tag with the password's image; a digest that does not parse yields `false`
(the verifier is a total function, it never raises).  The spec's constant-time
requirement is a timing property outside this functional model. -/
def verifyDigest (password digest : String) : Bool :=
  match dropPrefixChars "$argon2id$".toList digest.toList with
  | none => false
  | some rest =>
    match splitSalt rest with
    | none => false
    | some (_, tag) => decide (tag = password.toList)

/-- Modelled from the spec: a digest string is well-formed exactly when it has
the self-describing shape the hashing scheme produces. -/
def wellFormedDigest (digest : String) : Bool :=
  match dropPrefixChars "$argon2id$".toList digest.toList with
  | none => false
  | some rest => (splitSalt rest).isSome

/-! ## One contract, two backends (spec section 4.2): operation sequences -/

/-- A store operation of the common contract: create / get / extend / revoke /
list-by-principal / revoke-all-by-principal. -/
inductive StoreOp
  | create (user_email : String) (expires_in_minutes : Option Nat)
  | get (sid : String)
  | extend (sid : String) (minutes : Nat)
  | revoke (sid : String)
  | listByPrincipal (user_email : String)
  | revokeAll (user_email : String)
deriving DecidableEq, Repr

/-- What one operation returns to the caller.  A successful `get` hands back
the session dict (`GetResultDict`); the volatile backend's dict has no
`session_id` key, so that field is `none` there. -/
inductive OpOut
  | newId (sid : String)
  | found (d : Option GetResultDict)
  | flag (b : Bool)
  | count (n : Nat)
  | summaries (l : List SessionSummary)
deriving DecidableEq, Repr

/-- The dict the volatile backend's `get_session` returns, as the caller sees
it: the four stored keys and no `session_id` key. -/
def memRecordToDict (r : MemRecord) : GetResultDict :=
  { user_email := r.user_email, created_at := r.created_at, expires_at := r.expires_at,
    last_accessed := r.last_accessed, session_id := none }

/-- `str(uuid.uuid4())` modelled as an injective generator of nonempty ids:
the k-th id generated in a run. -/
def genId (k : Nat) : String :=
  "sid-" ++ String.mk (List.replicate k 'x')

/-- One operation against the volatile backend (threading the id counter). -/
def memStep (st : MemStore) (now ctr : Nat) (op : StoreOp) :
    OpOut × MemStore × Nat :=
  match op with
  | StoreOp.create email ttl =>
    let (sid, st') := memCreate st now (genId ctr) email (ttl.getD 30)
    (OpOut.newId sid, st', ctr + 1)
  | StoreOp.get sid =>
    let (r, st') := memGet st now sid
    (OpOut.found (r.map memRecordToDict), st', ctr)
  | StoreOp.extend sid m =>
    let (b, st') := memExtend st now sid m
    (OpOut.flag b, st', ctr)
  | StoreOp.revoke sid =>
    let (b, st') := memDelete st sid
    (OpOut.flag b, st', ctr)
  | StoreOp.listByPrincipal email =>
    (OpOut.summaries (memUserSessions st now email), st, ctr)
  | StoreOp.revokeAll email =>
    let (n, st') := memDeleteUser st email
    (OpOut.count n, st', ctr)

/-- One operation against the persistent backend (threading the id counter). -/
def dbStep (st : List DbRow) (now ctr : Nat) (op : StoreOp) :
    OpOut × List DbRow × Nat :=
  match op with
  | StoreOp.create email ttl =>
    let (sid, st') := dbCreate st now (genId ctr) email ttl
    (OpOut.newId sid, st', ctr + 1)
  | StoreOp.get sid =>
    let (r, st') := dbGet st now sid
    (OpOut.found r, st', ctr)
  | StoreOp.extend sid m =>
    let (b, st') := dbExtend st now sid m
    (OpOut.flag b, st', ctr)
  | StoreOp.revoke sid =>
    let (b, st') := dbDelete st sid
    (OpOut.flag b, st', ctr)
  | StoreOp.listByPrincipal email =>
    (OpOut.summaries (dbUserSessions st now email), st, ctr)
  | StoreOp.revokeAll email =>
    let (n, st') := dbDeleteAllUser st email
    (OpOut.count n, st', ctr)

/-- Run a sequence of operations against the volatile backend under a fixed
clock, collecting the values returned to the caller. -/
def memRun (now : Nat) (st : MemStore) (ctr : Nat) : List StoreOp → List OpOut × MemStore
  | [] => ([], st)
  | op :: rest =>
    let (o, st', ctr') := memStep st now ctr op
    let (os, stF) := memRun now st' ctr' rest
    (o :: os, stF)

/-- Run a sequence of operations against the persistent backend under a fixed
clock, collecting the values returned to the caller. -/
def dbRun (now : Nat) (st : List DbRow) (ctr : Nat) : List StoreOp → List OpOut × List DbRow
  | [] => ([], st)
  | op :: rest =>
    let (o, st', ctr') := dbStep st now ctr op
    let (os, stF) := dbRun now st' ctr' rest
    (o :: os, stF)

/-- Some stored row carries this id but is already deactivated. -/
def dbHasDeadRow (st : List DbRow) (sid : String) : Bool :=
  st.any (fun r => decide (r.session_id = sid) && ! r.is_active)

/-- No `revoke` in the sequence targets an id whose row is already
deactivated — the one situation in which the two backends answer a `revoke`
differently. -/
def noReRevoke (now : Nat) (st : List DbRow) (ctr : Nat) : List StoreOp → Bool
  | [] => true
  | op :: rest =>
    (match op with
     | StoreOp.revoke sid => ! dbHasDeadRow st sid
     | _ => true) &&
    (let (_, st', ctr') := dbStep st now ctr op
     noReRevoke now st' ctr' rest)

/-- Erase the `session_id` key of a returned session dict, keeping the four
fields common to the two backends' `get` results. -/
def eraseSidKey (o : OpOut) : OpOut :=
  match o with
  | OpOut.found (some d) => OpOut.found (some { d with session_id := none })
  | _ => o

/-- The projection of a row into a dict entry of the volatile store. -/
def toEntry (r : DbRow) : String × MemRecord :=
  (r.session_id,
   { user_email := r.user_email, created_at := r.created_at,
     expires_at := r.expires_at, last_accessed := r.last_accessed })

/-- The simulation invariant tying a volatile store to a persistent store
during a same-clock run: the active rows project exactly onto the in-memory
dict (same order, same fields), every stored id was produced by the injective
generator below the shared counter, stored ids are pairwise distinct, no
active row is expired, and the volatile store's cleanup gate was stamped at
the current instant. -/
structure SimInv (mem : MemStore) (db : List DbRow) (now ctr : Nat) : Prop where
  proj : (db.filter (fun r => r.is_active)).map toEntry = mem.sessions
  fresh : ∀ r ∈ db, ∃ k, k < ctr ∧ r.session_id = genId k
  unexpired : ∀ r ∈ db, r.is_active = true → now ≤ r.expires_at
  nodup : (db.map (fun r => r.session_id)).Nodup
  cleanupGate : mem.last_cleanup = now

/-! ## Helper lemmas

In concrete states below, records and rows are written with anonymous
constructors: `MemRecord` fields are (user_email, created_at, expires_at,
last_accessed); `DbRow` fields are (session_id, user_email, created_at,
expires_at, last_accessed, is_active). -/

theorem dictLookup_eq_none (l : List (String × MemRecord)) (k : String)
    (h : ∀ e ∈ l, e.1 ≠ k) : dictLookup l k = none := by
  induction l with
  | nil => rfl
  | cons e rest ih =>
    simp only [dictLookup]
    rw [if_neg (h e (List.mem_cons_self e rest))]
    exact ih (fun e' he' => h e' (List.mem_cons_of_mem e he'))

theorem dictRemove_lookup_self (l : List (String × MemRecord)) (k : String)
    (h : (l.map Prod.fst).Nodup) : dictLookup (dictRemove l k) k = none := by
  induction l with
  | nil => rfl
  | cons e rest ih =>
    simp only [List.map_cons, List.nodup_cons] at h
    by_cases hk : e.1 = k
    · simp only [dictRemove, if_pos hk]
      apply dictLookup_eq_none
      intro e' he' hke
      have hee : e.1 = e'.1 := by rw [hk, hke]
      exact h.1 (by rw [hee]; exact List.mem_map_of_mem Prod.fst he')
    · simp only [dictRemove, if_neg hk, dictLookup, if_neg hk]
      exact ih h.2

/-! ## C1 -/

/-- C1: the claim "once a record is not live (expired or revoked), no
subsequent operation observes it as live again; extend on a dead record
returns false and does not move its expiry forward" is violated by the
volatile backend: at `now = 1000` the stored record expired at 500, yet
`extend_session` returns `True`, sets `expires_at = now + 30 min = 2800`, and
a subsequent `get_session` observes the record as live again. -/
theorem c1_memory_extend_resurrects_expired_record :
    (memExtend ⟨[("s1", ⟨"a", 0, 500, 0⟩)], 1000⟩ 1000 "s1" 30).1 = true ∧
    (memExtend ⟨[("s1", ⟨"a", 0, 500, 0⟩)], 1000⟩ 1000 "s1" 30).2.sessions
      = [("s1", ⟨"a", 0, 2800, 1000⟩)] ∧
    (memGet (memExtend ⟨[("s1", ⟨"a", 0, 500, 0⟩)], 1000⟩ 1000 "s1" 30).2 1000 "s1").1
      = some ⟨"a", 0, 2800, 1000⟩ ∧
    (1000 : Nat) > 500 := by
  refine ⟨rfl, rfl, rfl, by decide⟩

/-! ## C4 -/

/-- C4: the claim "revoke(id) returns true exactly once, in both backends" is
violated by the persistent backend: `delete_session` filters on `session_id`
only, so the second revoke of the same id finds the already-deactivated row
and returns `True` again. -/
theorem c4_db_second_revoke_returns_true :
    (dbDelete [⟨"s1", "a", 0, 10000, 0, true⟩] "s1").1 = true ∧
    (dbDelete (dbDelete [⟨"s1", "a", 0, 10000, 0, true⟩] "s1").2 "s1").1 = true := by
  exact ⟨rfl, rfl⟩

/-! ## C5 -/

/-- C5: the claim "extend through the session-management layer with
minutes = 480 succeeds" is violated: the effective
`SecurityManager.extend_session` is the second class-body definition, which
accepts only `session_id`, so the handler's call with `minutes` and `db`
raises `TypeError` and the handler answers 500, leaving the store unchanged.
The 481 half of the claim does hold: the handler rejects it with the 400
range error before any store call. -/
theorem c5_extend480_hits_typeerror_500 :
    (extendCurrentSession [⟨"s1", "a", 0, 10000, 0, true⟩] 0 "s1" 480)
      = (HandlerOutcome.httpError internalServerError, [⟨"s1", "a", 0, 10000, 0, true⟩]) ∧
    (extendCurrentSession [⟨"s1", "a", 0, 10000, 0, true⟩] 0 "s1" 481)
      = (HandlerOutcome.httpError minutesRangeError, [⟨"s1", "a", 0, 10000, 0, true⟩]) := by
  exact ⟨rfl, rfl⟩

/-! ## C9 -/

/-- C9, counterexample: `revokeAllByPrincipal` never looks at the clock, so a
record of `p` that expired at 10 but is still stored active at `now = 100` is
counted: both backends return 1 where the claim's "number of live records
marked inactive" is 0. -/
theorem c9_counterexample_counts_expired_record :
    (dbDeleteAllUser [⟨"s1", "p", 0, 10, 0, true⟩] "p").1 = 1 ∧
    (memDeleteUser ⟨[("s1", ⟨"p", 0, 10, 0⟩)], 100⟩ "p").1 = 1 ∧
    ([(⟨"s1", "p", 0, 10, 0, true⟩ : DbRow)].filter
      (fun r => r.is_active && decide ((100 : Nat) ≤ r.expires_at))).length = 0 := by
  refine ⟨rfl, rfl, rfl⟩

/-- C9, amended: `revokeAllByPrincipal(p)` affects exactly the records of `p`
that are still stored active (persistent backend) or still present (volatile
backend) — expired-but-unreclaimed ones included — and returns that number;
every record of a different principal is preserved exactly (same position,
same fields, hence same liveness). -/
theorem c9_amended_revoke_all_isolation (stD : List DbRow) (stM : MemStore) (p : String) :
    (dbDeleteAllUser stD p).1
        = (stD.filter (fun r => decide (r.user_email = p) && r.is_active)).length ∧
    (∀ r, r ∈ (dbDeleteAllUser stD p).2 → r.user_email = p → r.is_active = false) ∧
    ((dbDeleteAllUser stD p).2.filter (fun r => ! decide (r.user_email = p)))
        = stD.filter (fun r => ! decide (r.user_email = p)) ∧
    (memDeleteUser stM p).1
        = (stM.sessions.filter (fun e => decide (e.2.user_email = p))).length ∧
    (memDeleteUser stM p).2.sessions
        = stM.sessions.filter (fun e => ! decide (e.2.user_email = p)) := by
  refine ⟨rfl, ?_, ?_, rfl, rfl⟩
  · intro r hr hp
    simp only [dbDeleteAllUser, List.mem_map] at hr
    obtain ⟨r0, _, hr0⟩ := hr
    by_cases hc : r0.user_email = p ∧ r0.is_active = true
    · rw [if_pos hc] at hr0; rw [← hr0]
    · rw [if_neg hc] at hr0
      rcases Decidable.not_and_iff_or_not.mp hc with h | h
      · exact absurd (hr0 ▸ hp) h
      · subst hr0
        exact Bool.not_eq_true r0.is_active ▸ h
  · induction stD with
    | nil => rfl
    | cons r rest ih =>
      simp only [dbDeleteAllUser, List.map_cons]
      by_cases hc : r.user_email = p ∧ r.is_active = true
      · rw [if_pos hc]
        have hep : (! decide (r.user_email = p)) = false := by simp [hc.1]
        simp only [List.filter_cons, hep]
        simpa [dbDeleteAllUser] using ih
      · rw [if_neg hc]
        simp only [List.filter_cons]
        cases he : (! decide (r.user_email = p)) with
        | true => simpa [dbDeleteAllUser, he] using congrArg (List.cons r) ih
        | false => simpa [dbDeleteAllUser, he] using ih

/-! ## C10 -/

/-- C10: for the empty session identifier, every public store operation
returns its failure value without raising and leaves the store unchanged, in
both backends.  The volatile backend's delete/extend reach this through the
membership test; the hypothesis that the empty string is not a stored key
holds in every reachable store, since ids are uuid strings. -/
theorem c10_empty_id_all_ops_fail (stM : MemStore) (stD : List DbRow) (now : Nat)
    (h : dictLookup stM.sessions "" = none) :
    memGet stM now "" = (none, stM) ∧
    memDelete stM "" = (false, stM) ∧
    memExtend stM now "" 30 = (false, stM) ∧
    dbGet stD now "" = (none, stD) ∧
    dbDelete stD "" = (false, stD) ∧
    dbExtend stD now "" 30 = (false, stD) := by
  refine ⟨by simp [memGet], by simp [memDelete, h], by simp [memExtend, h],
    by simp [dbGet], by simp [dbDelete], by simp [dbExtend]⟩

/-- Witness for C10 at a concrete nonempty store. -/
theorem c10_witness :
    dictLookup [("s1", (⟨"a", 0, 100, 0⟩ : MemRecord))] "" = none ∧
    memDelete ⟨[("s1", ⟨"a", 0, 100, 0⟩)], 0⟩ "" = (false, ⟨[("s1", ⟨"a", 0, 100, 0⟩)], 0⟩) :=
  ⟨by decide,
   (c10_empty_id_all_ops_fail ⟨[("s1", ⟨"a", 0, 100, 0⟩)], 0⟩ [⟨"s1", "a", 0, 1, 0, true⟩] 5
     (by decide)).2.1⟩

/-! ## C3 -/

theorem updateFirst_deactivate_find_none (st : List DbRow) (sid : String)
    (hnd : (st.map DbRow.session_id).Nodup) :
    (updateFirst st (fun r => decide (r.session_id = sid))
        (fun r => { r with is_active := false })).find?
      (fun r => decide (r.session_id = sid) && r.is_active) = none := by
  induction st with
  | nil => rfl
  | cons r rest ih =>
    simp only [List.map_cons, List.nodup_cons] at hnd
    simp only [updateFirst]
    by_cases hr : r.session_id = sid
    · rw [if_pos (by simp [hr])]
      rw [List.find?_cons_of_neg _ (by simp)]
      apply List.find?_eq_none.mpr
      intro x hx
      have hxs : x.session_id ≠ sid := by
        intro hxx
        have hmem : sid ∈ rest.map DbRow.session_id := by
          rw [← hxx]; exact List.mem_map_of_mem DbRow.session_id hx
        exact hnd.1 (by rw [hr]; exact hmem)
      simp [hxs]
    · rw [if_neg (by simp [hr])]
      rw [List.find?_cons_of_neg _ (by simp [hr])]
      exact ih hnd.2

/-- C3, counterexample: the code's liveness cut-off is `now ≤ expires_at`, not
the claim's "now before expires_at": at the instant `now = expires_at = 100`
the record is not live as the claim defines liveness, yet both backends'
`get` return it. -/
theorem c3_counterexample_get_at_expiry_instant :
    ¬ ((100 : Nat) < 100) ∧
    (memGet ⟨[("s1", ⟨"alice@example.com", 0, 100, 0⟩)], 100⟩ 100 "s1").1
      = some ⟨"alice@example.com", 0, 100, 100⟩ ∧
    (dbGet [⟨"s1", "alice@example.com", 0, 100, 0, true⟩] 100 "s1").1
      = some ⟨"alice@example.com", 0, 100, 100, some "s1"⟩ := by
  refine ⟨by decide, rfl, rfl⟩

/-- C3, amended: `get(id)` returns the record (with `last_accessed` updated to
`now`) exactly when it is stored live with `now ≤ expires_at` (the record is
still returned at the expiry instant itself); a stored but dead record is
cleaned up on read — removed by the volatile backend, deactivated by the
persistent one — and reported absent, and an unknown id is reported absent
with the store unchanged.  Concretely (Scenario A): after
create(principal alice@example.com, ttl 30 min) at t = 0, get returns the
principal at t = 0 and reports absent at t = 31 min = 1860 s. -/
theorem c3_get_returns_record_iff_live (stM : MemStore) (stD : List DbRow) (now : Nat)
    (sid : String) (r : MemRecord) (row : DbRow)
    (hsid : sid ≠ "")
    (hkeys : (stM.sessions.map Prod.fst).Nodup)
    (hrows : (stD.map DbRow.session_id).Nodup) :
    (dictLookup stM.sessions sid = some r →
      (now ≤ r.expires_at →
        memGet stM now sid
          = (some { r with last_accessed := now },
             { stM with sessions := dictSet stM.sessions sid { r with last_accessed := now } })) ∧
      (r.expires_at < now →
        (memGet stM now sid).1 = none ∧
        dictLookup (memGet stM now sid).2.sessions sid = none)) ∧
    (dictLookup stM.sessions sid = none → memGet stM now sid = (none, stM)) ∧
    (stD.find? (fun x => decide (x.session_id = sid) && x.is_active) = some row →
      (now ≤ row.expires_at →
        (dbGet stD now sid).1
          = some ⟨row.user_email, row.created_at, row.expires_at, now, some row.session_id⟩) ∧
      (row.expires_at < now →
        (dbGet stD now sid).1 = none ∧
        (dbGet stD now sid).2.find? (fun x => decide (x.session_id = sid) && x.is_active)
          = none)) ∧
    (stD.find? (fun x => decide (x.session_id = sid) && x.is_active) = none →
      dbGet stD now sid = (none, stD)) ∧
    ((memGet (memCreate ⟨[], 0⟩ 0 "sidA" "alice@example.com" 30).2 0 "sidA").1.map
        MemRecord.user_email = some "alice@example.com") ∧
    ((memGet (memCreate ⟨[], 0⟩ 0 "sidA" "alice@example.com" 30).2 1860 "sidA").1 = none) ∧
    ((dbGet (dbCreate [] 0 "sidA" "alice@example.com" (some 30)).2 0 "sidA").1.map
        GetResultDict.user_email = some "alice@example.com") ∧
    ((dbGet (dbCreate [] 0 "sidA" "alice@example.com" (some 30)).2 1860 "sidA").1 = none) := by
  refine ⟨?_, ?_, ?_, ?_, by decide, by decide, by decide, by decide⟩
  · intro hlk
    constructor
    · intro hlive
      have hnx : ¬ (now > r.expires_at) := Nat.not_lt.mpr hlive
      simp [memGet, hsid, hlk, hnx]
    · intro hdead
      have hx : now > r.expires_at := hdead
      refine ⟨by simp [memGet, hsid, hlk, hx], ?_⟩
      have hst : (memGet stM now sid).2
          = { stM with sessions := dictRemove stM.sessions sid } := by
        simp [memGet, hsid, hlk, hx, memDelete]
      rw [hst]
      exact dictRemove_lookup_self stM.sessions sid hkeys
  · intro hlk
    simp [memGet, hsid, hlk]
  · intro hfind
    have hfacts := List.find?_some hfind
    simp only [Bool.and_eq_true, decide_eq_true_eq] at hfacts
    constructor
    · intro hlive
      have hnx : row.is_expired now = false := by
        simp [DbRow.is_expired, Nat.not_lt.mpr hlive]
      simp [dbGet, hsid, hfind, hnx]
    · intro hdead
      have hx : row.is_expired now = true := by
        simpa [DbRow.is_expired] using hdead
      refine ⟨by simp [dbGet, hsid, hfind, hx], ?_⟩
      have hmem : row ∈ stD := List.mem_of_find?_eq_some hfind
      have hfs : (stD.find? (fun x => decide (x.session_id = sid))).isSome := by
        rw [List.find?_isSome]
        exact ⟨row, hmem, by simp [hfacts.1]⟩
      obtain ⟨row', hrow'⟩ := Option.isSome_iff_exists.mp hfs
      have hst : (dbGet stD now sid).2
          = updateFirst stD (fun x => decide (x.session_id = sid))
              (fun x => { x with is_active := false }) := by
        simp [dbGet, hsid, hfind, hx, dbDelete, hrow']
      rw [hst]
      exact updateFirst_deactivate_find_none stD sid hrows
  · intro hfind
    simp [dbGet, hsid, hfind]

/-- Witness for C3 at concrete live and dead records. -/
theorem c3_witness :
    ("s1" : String) ≠ "" ∧
    (memGet ⟨[("s1", ⟨"a", 0, 100, 0⟩)], 0⟩ 50 "s1").1 = some ⟨"a", 0, 100, 50⟩ ∧
    (dbGet [⟨"s1", "a", 0, 100, 0, true⟩] 200 "s1").1 = none := by
  have h := c3_get_returns_record_iff_live ⟨[("s1", ⟨"a", 0, 100, 0⟩)], 0⟩
    [⟨"s1", "a", 0, 100, 0, true⟩] 50 "s1" ⟨"a", 0, 100, 0⟩ ⟨"s1", "a", 0, 100, 0, true⟩
    (by decide) (by decide) (by decide)
  have h2 := c3_get_returns_record_iff_live ⟨[("s1", ⟨"a", 0, 100, 0⟩)], 0⟩
    [⟨"s1", "a", 0, 100, 0, true⟩] 200 "s1" ⟨"a", 0, 100, 0⟩ ⟨"s1", "a", 0, 100, 0, true⟩
    (by decide) (by decide) (by decide)
  refine ⟨by decide, ?_, ?_⟩
  · have hh := (h.1 (by decide)).1 (by decide)
    rw [hh]
  · exact ((h2.2.2.1 (by decide)).2 (by decide)).1

/-! ## C6 -/

theorem dropPrefixChars_append (pre rest : List Char) :
    dropPrefixChars pre (pre ++ rest) = some rest := by
  induction pre with
  | nil => rfl
  | cons c cs ih => simp [dropPrefixChars, ih]

theorem splitSalt_append (s b : List Char) (h : '$' ∉ s) :
    splitSalt (s ++ '$' :: b) = some (s, b) := by
  induction s with
  | nil => simp [splitSalt]
  | cons c cs ih =>
    have hc : ¬ (c = '$') := fun hh => h (hh ▸ List.mem_cons_self c cs)
    have hcs : '$' ∉ cs := fun hh => h (List.mem_cons_of_mem c hh)
    simp [splitSalt, hc, ih hcs]

theorem mkDigest_toList (salt p : String) :
    (mkDigest salt p).toList = "$argon2id$".toList ++ (salt.toList ++ '$' :: p.toList) := by
  show (mkDigest salt p).data = "$argon2id$".data ++ (salt.data ++ '$' :: p.data)
  have hd : ("$" : String).data = ['$'] := rfl
  simp [mkDigest, String.data_append, hd]

/-- C6: against the spec-modelled credential verifier (the hashing library is
external to the repository): a digest produced by `hash` verifies against the
hashed password and is well-formed; it does not verify against a different
password; and for any malformed digest string, `verify` returns `false` for
every password — it is a total function and never raises. -/
theorem c6_verify_digest_contract (salt p q d : String)
    (hsalt : '$' ∉ salt.toList) (hq : q ≠ p) (hd : wellFormedDigest d = false) :
    verifyDigest p (mkDigest salt p) = true ∧
    verifyDigest q (mkDigest salt p) = false ∧
    verifyDigest p d = false ∧
    wellFormedDigest (mkDigest salt p) = true := by
  have hsplit := splitSalt_append salt.toList p.toList hsalt
  simp only [String.toList] at hsplit
  refine ⟨?_, ?_, ?_, ?_⟩
  · unfold verifyDigest
    rw [mkDigest_toList, dropPrefixChars_append]
    simp [hsplit]
  · have hne : ¬ (p.toList = q.toList) := by
      intro hh
      exact hq (String.ext hh.symm)
    simp only [String.toList] at hne
    unfold verifyDigest
    rw [mkDigest_toList, dropPrefixChars_append]
    simp [hsplit, hne]
  · cases hpre : dropPrefixChars "$argon2id$".toList d.toList with
    | none =>
      unfold verifyDigest
      rw [hpre]
    | some rest =>
      have hsp : splitSalt rest = none := by
        unfold wellFormedDigest at hd
        rw [hpre] at hd
        simpa using hd
      unfold verifyDigest
      rw [hpre]
      simp [hsp]
  · unfold wellFormedDigest
    rw [mkDigest_toList, dropPrefixChars_append]
    simp [hsplit]

/-- Witness for C6 at concrete passwords and a concrete malformed digest. -/
theorem c6_witness :
    ('$' ∉ "somesalt".toList ∧ ("wrong" : String) ≠ "correct" ∧
      wellFormedDigest "not-a-digest" = false) ∧
    verifyDigest "correct" (mkDigest "somesalt" "correct") = true ∧
    verifyDigest "wrong" (mkDigest "somesalt" "correct") = false ∧
    verifyDigest "correct" "not-a-digest" = false ∧
    wellFormedDigest (mkDigest "somesalt" "correct") = true :=
  ⟨⟨by decide, by decide, by decide⟩,
   c6_verify_digest_contract "somesalt" "correct" "wrong" "not-a-digest"
     (by decide) (by decide) (by decide)⟩

/-! ## C7 -/

theorem getCurrentUserSession_absent (st : List DbRow) (now : Nat)
    (cookie header : Option String) (sid : String)
    (h1 : pyOrStr cookie header = some sid) (h2 : sid ≠ "")
    (h3 : (dbGet st now sid).1 = none) :
    (getCurrentUserSession st now cookie header).1 = Except.error invalidSessionError := by
  rcases hpair : dbGet st now sid with ⟨o, st2⟩
  have ho : o = none := by rw [← h3, hpair]
  subst ho
  simp [getCurrentUserSession, h1, h2, hpair]

theorem getCurrentUserForSessionOps_absent (st : List DbRow) (now : Nat) (sid : String)
    (h2 : sid ≠ "") (h3 : (dbGet st now sid).1 = none) :
    (getCurrentUserForSessionOps st now (some sid)).1 = Except.error invalidSessionError := by
  rcases hpair : dbGet st now sid with ⟨o, st2⟩
  have ho : o = none := by rw [← h3, hpair]
  subst ho
  simp [getCurrentUserForSessionOps, h2, hpair]

/-- C7: whenever the store resolves a presented session id to absent — which
is what it answers for an id that never existed, an expired id and a revoked
id alike — the authenticator rejects with the one constant invalid-or-expired
signal, identical across all states and causes; a missing (or empty)
identifier gets the distinct unauthenticated signal.  The companion guard for
session operations behaves the same way. -/
theorem c7_uniform_rejection_signal (st : List DbRow) (now : Nat)
    (cookie header : Option String) (sid : String)
    (hsid : pyOrStr cookie header = some sid) (hne : sid ≠ "")
    (habsent : (dbGet st now sid).1 = none) :
    (getCurrentUserSession st now cookie header).1 = Except.error invalidSessionError ∧
    (∀ st2 now2 c2 h2 sid2, pyOrStr c2 h2 = some sid2 → sid2 ≠ "" →
        (dbGet st2 now2 sid2).1 = none →
        (getCurrentUserSession st2 now2 c2 h2).1
          = (getCurrentUserSession st now cookie header).1) ∧
    (∀ c2 h2, pyOrStr c2 h2 = none ∨ pyOrStr c2 h2 = some "" →
        (getCurrentUserSession st now c2 h2).1 = Except.error noSessionError) ∧
    (∀ st2 now2 sid2, sid2 ≠ "" → (dbGet st2 now2 sid2).1 = none →
        (getCurrentUserForSessionOps st2 now2 (some sid2)).1
          = Except.error invalidSessionError) ∧
    (getCurrentUserForSessionOps st now none).1 = Except.error noSessionError ∧
    noSessionError ≠ invalidSessionError := by
  refine ⟨getCurrentUserSession_absent st now cookie header sid hsid hne habsent,
    ?_, ?_, ?_, by simp [getCurrentUserForSessionOps], by decide⟩
  · intro st2 now2 c2 h2 sid2 ha hb hc
    rw [getCurrentUserSession_absent st2 now2 c2 h2 sid2 ha hb hc,
      getCurrentUserSession_absent st now cookie header sid hsid hne habsent]
  · intro c2 h2 hcase
    rcases hcase with h | h
    · simp [getCurrentUserSession, h]
    · simp [getCurrentUserSession, h]
  · intro st2 now2 sid2 ha hb
    exact getCurrentUserForSessionOps_absent st2 now2 sid2 ha hb

/-- Witness for C7: an unknown id on an empty store is rejected with the
invalid-or-expired signal. -/
theorem c7_witness :
    (pyOrStr (some "zzz") none = some "zzz" ∧ ("zzz" : String) ≠ "" ∧
      (dbGet [] 5 "zzz").1 = none) ∧
    (getCurrentUserSession [] 5 (some "zzz") none).1 = Except.error invalidSessionError :=
  ⟨⟨by decide, by decide, by decide⟩,
   (c7_uniform_rejection_signal [] 5 (some "zzz") none "zzz"
     (by decide) (by decide) (by decide)).1⟩

/-! ## C8 -/

theorem map_id_of_eq {α : Type} (l : List α) (f : α → α) (h : ∀ x ∈ l, f x = x) :
    l.map f = l := by
  induction l with
  | nil => rfl
  | cons a t ih =>
    simp only [List.map_cons]
    rw [h a (List.mem_cons_self a t), ih (fun x hx => h x (List.mem_cons_of_mem a hx))]

theorem updateFirst_eq_map_of_nodup (st : List DbRow) (sid : String) (f : DbRow → DbRow)
    (hnd : (st.map DbRow.session_id).Nodup) :
    updateFirst st (fun r => decide (r.session_id = sid)) f
      = st.map (fun r => if r.session_id = sid then f r else r) := by
  induction st with
  | nil => rfl
  | cons r rest ih =>
    simp only [List.map_cons, List.nodup_cons] at hnd
    simp only [updateFirst, List.map_cons]
    by_cases hr : r.session_id = sid
    · rw [if_pos (by simp [hr]), if_pos hr]
      have hrest : rest.map (fun x => if x.session_id = sid then f x else x) = rest := by
        apply map_id_of_eq
        intro x hx
        have hxs : ¬ (x.session_id = sid) := by
          intro hxx
          have hmem : sid ∈ rest.map DbRow.session_id := by
            rw [← hxx]; exact List.mem_map_of_mem DbRow.session_id hx
          exact hnd.1 (by rw [hr]; exact hmem)
        rw [if_neg hxs]
      rw [hrest]
    · rw [if_neg (by simp [hr]), if_neg hr, ih hnd.2]

/-- C8: for the ownership-scoped terminate operation, with the acting
principal authenticated: a target that is not among the acting principal's
live sessions — nonexistent, foreign or dead — is rejected with the one
not-found signal and the store is untouched; a target equal to the acting
principal's own current session id is rejected (never a success) and the
store is untouched; an owned, distinct, live target is deactivated and
nothing else changes. -/
theorem c8_terminate_session_guards (st : List DbRow) (now : Nat)
    (email asid tsid : String)
    (hnd : (st.map DbRow.session_id).Nodup) (hts : tsid ≠ "") :
    ((∀ s ∈ dbUserSessions st now email, s.session_id ≠ tsid) →
      terminateSession st now email asid tsid
        = (HandlerOutcome.httpError sessionNotFoundError, st)) ∧
    (tsid = asid →
      (terminateSession st now email asid tsid).1 ≠ HandlerOutcome.ok ∧
      (terminateSession st now email asid tsid).2 = st) ∧
    ((∃ s ∈ dbUserSessions st now email, s.session_id = tsid) → tsid ≠ asid →
      (terminateSession st now email asid tsid).1 = HandlerOutcome.ok ∧
      (terminateSession st now email asid tsid).2
        = st.map (fun r => if r.session_id = tsid then { r with is_active := false } else r)) := by
  refine ⟨?_, ?_, ?_⟩
  · intro hnone
    have hf : (dbUserSessions st now email).find? (fun s => decide (s.session_id = tsid))
        = none := by
      apply List.find?_eq_none.mpr
      intro s hs
      simp [hnone s hs]
    simp [terminateSession, hf]
  · intro heq
    subst heq
    cases hf : (dbUserSessions st now email).find? (fun s => decide (s.session_id = tsid)) with
    | none => simp [terminateSession, hf]
    | some s => simp [terminateSession, hf]
  · intro hex hneq
    obtain ⟨s, hs, hsid⟩ := hex
    have hf : ((dbUserSessions st now email).find?
        (fun x => decide (x.session_id = tsid))).isSome := by
      rw [List.find?_isSome]
      exact ⟨s, hs, by simp [hsid]⟩
    obtain ⟨s', hs'⟩ := Option.isSome_iff_exists.mp hf
    have hrow : ∃ row ∈ st, row.session_id = tsid := by
      simp only [dbUserSessions, List.mem_map, List.mem_filter] at hs
      obtain ⟨row, ⟨⟨hrmem, _⟩, _⟩, hproj⟩ := hs
      refine ⟨row, hrmem, ?_⟩
      rw [← hsid, ← hproj]
    obtain ⟨row, hrmem, hrsid⟩ := hrow
    have hdf : (st.find? (fun r => decide (r.session_id = tsid))).isSome := by
      rw [List.find?_isSome]
      exact ⟨row, hrmem, by simp [hrsid]⟩
    obtain ⟨row', hrow'⟩ := Option.isSome_iff_exists.mp hdf
    have hdel : dbDelete st tsid
        = (true, updateFirst st (fun r => decide (r.session_id = tsid))
            (fun r => { r with is_active := false })) := by
      simp [dbDelete, hts, hrow']
    constructor
    · simp [terminateSession, hs', hneq, hdel]
    · simp only [terminateSession, hs', if_neg hneq, hdel]
      exact updateFirst_eq_map_of_nodup st tsid _ hnd

/-- Witness for C8: a principal with two live sessions terminates the other
one. -/
theorem c8_witness :
    (([⟨"own", "p", 0, 9000, 0, true⟩, ⟨"other", "p", 0, 9000, 0, true⟩,
        ⟨"foreign", "q", 0, 9000, 0, true⟩] : List DbRow).map DbRow.session_id).Nodup ∧
    (terminateSession [⟨"own", "p", 0, 9000, 0, true⟩, ⟨"other", "p", 0, 9000, 0, true⟩,
        ⟨"foreign", "q", 0, 9000, 0, true⟩] 0 "p" "own" "other").1 = HandlerOutcome.ok :=
  ⟨by decide,
   ((c8_terminate_session_guards [⟨"own", "p", 0, 9000, 0, true⟩,
       ⟨"other", "p", 0, 9000, 0, true⟩, ⟨"foreign", "q", 0, 9000, 0, true⟩] 0 "p" "own" "other"
       (by decide) (by decide)).2.2 (by decide) (by decide)).1⟩

/-! ## C2: helper lemmas for the backend simulation -/

theorem genId_injective (a b : Nat) (h : genId a = genId b) : a = b := by
  have hd := congrArg String.data h
  simp only [genId, String.data_append] at hd
  have hrep : List.replicate a 'x' = List.replicate b 'x' :=
    List.append_cancel_left hd
  have := congrArg List.length hrep
  simpa using this

theorem genId_ne_empty (a : Nat) : genId a ≠ "" := by
  intro h
  have hd := congrArg String.data h
  simp [genId, String.data_append] at hd

theorem dictSet_append_of_lookup_none (l : List (String × MemRecord)) (k : String)
    (v : MemRecord) (h : dictLookup l k = none) : dictSet l k v = l ++ [(k, v)] := by
  induction l with
  | nil => rfl
  | cons e rest ih =>
    by_cases hk : e.1 = k
    · exfalso
      rcases e with ⟨k', v'⟩
      simp only [dictLookup, if_pos hk] at h
      exact Option.noConfusion h
    · rcases e with ⟨k', v'⟩
      simp only [dictLookup] at h
      rw [if_neg hk] at h
      simp only [dictSet, if_neg hk, List.cons_append]
      rw [ih h]

theorem dictRemove_of_no_key (l : List (String × MemRecord)) (k : String)
    (h : ∀ e ∈ l, e.1 ≠ k) : dictRemove l k = l := by
  induction l with
  | nil => rfl
  | cons e rest ih =>
    simp only [dictRemove, if_neg (h e (List.mem_cons_self e rest))]
    rw [ih (fun x hx => h x (List.mem_cons_of_mem e hx))]

theorem dictLookup_image (db : List DbRow) (sid : String) :
    dictLookup ((db.filter (fun r => r.is_active)).map toEntry) sid
      = (db.find? (fun r => decide (r.session_id = sid) && r.is_active)).map
          (fun r => (toEntry r).2) := by
  induction db with
  | nil => rfl
  | cons r rest ih =>
    cases hact : r.is_active with
    | false =>
      rw [List.filter_cons_of_neg (by simp [hact]),
        List.find?_cons_of_neg _ (by simp [hact])]
      exact ih
    | true =>
      rw [List.filter_cons_of_pos (by simp [hact]), List.map_cons]
      by_cases hsid : r.session_id = sid
      · rw [List.find?_cons_of_pos _ (by simp [hsid, hact])]
        simp only [dictLookup, toEntry, if_pos hsid]
        rfl
      · rw [List.find?_cons_of_neg _ (by simp [hsid])]
        simp only [dictLookup, toEntry]
        rw [if_neg hsid]
        exact ih

theorem updateFirst_map_sid (db : List DbRow) (p : DbRow → Bool) (f : DbRow → DbRow)
    (hfid : ∀ r, (f r).session_id = r.session_id) :
    (updateFirst db p f).map DbRow.session_id = db.map DbRow.session_id := by
  induction db with
  | nil => rfl
  | cons r rest ih =>
    simp only [updateFirst]
    by_cases hp : p r = true
    · rw [if_pos hp]
      simp only [List.map_cons, hfid r]
    · rw [if_neg hp]
      simp only [List.map_cons, ih]

theorem mem_updateFirst (db : List DbRow) (p : DbRow → Bool) (f : DbRow → DbRow)
    (x : DbRow) (hx : x ∈ updateFirst db p f) :
    x ∈ db ∨ ∃ r ∈ db, p r = true ∧ x = f r := by
  induction db with
  | nil => simp [updateFirst] at hx
  | cons r rest ih =>
    simp only [updateFirst] at hx
    by_cases hp : p r = true
    · rw [if_pos hp] at hx
      rcases List.mem_cons.mp hx with h | h
      · exact Or.inr ⟨r, List.mem_cons_self r rest, hp, h⟩
      · exact Or.inl (List.mem_cons_of_mem r h)
    · rw [if_neg hp] at hx
      rcases List.mem_cons.mp hx with h | h
      · exact Or.inl (h ▸ List.mem_cons_self r rest)
      · rcases ih h with h2 | ⟨r2, hr2, hpr2, hxr2⟩
        · exact Or.inl (List.mem_cons_of_mem r h2)
        · exact Or.inr ⟨r2, List.mem_cons_of_mem r hr2, hpr2, hxr2⟩

theorem filter_map_updateFirst (db : List DbRow) (sid : String) (f : DbRow → DbRow)
    (hfid : ∀ r, (f r).session_id = r.session_id)
    (hfact : ∀ r, (f r).is_active = r.is_active)
    (row : DbRow)
    (hfind : db.find? (fun r => decide (r.session_id = sid) && r.is_active) = some row) :
    ((updateFirst db (fun r => decide (r.session_id = sid) && r.is_active) f).filter
        (fun r => r.is_active)).map toEntry
      = dictSet ((db.filter (fun r => r.is_active)).map toEntry) sid (toEntry (f row)).2 := by
  induction db with
  | nil => simp [List.find?] at hfind
  | cons r rest ih =>
    by_cases hp : (decide (r.session_id = sid) && r.is_active) = true
    · have hrsid : r.session_id = sid := by
        have := hp
        simp only [Bool.and_eq_true, decide_eq_true_eq] at this
        exact this.1
      have hract : r.is_active = true := by
        have := hp
        simp only [Bool.and_eq_true, decide_eq_true_eq] at this
        exact this.2
      have hrow : row = r := by
        simp only [List.find?, hp, Option.some.injEq] at hfind
        exact hfind.symm
      subst hrow
      simp only [updateFirst, if_pos hp]
      rw [List.filter_cons_of_pos (by simp [hfact, hract]),
        List.filter_cons_of_pos (by simp [hract])]
      simp only [List.map_cons]
      have hkey : (toEntry row).1 = sid := hrsid
      simp only [dictSet, toEntry, if_pos hrsid]
      have : (f row).session_id = sid := by rw [hfid, hrsid]
      simp [this]
    · have hb : (decide (r.session_id = sid) && r.is_active) = false := by
        simpa using hp
      simp only [List.find?, hb] at hfind
      simp only [updateFirst, if_neg hp]
      cases hact : r.is_active with
      | false =>
        rw [List.filter_cons_of_neg (by simp [hact]),
          List.filter_cons_of_neg (by simp [hact])]
        exact ih hfind
      | true =>
        have hrsid : ¬ (r.session_id = sid) := by
          intro hh
          exact hp (by simp [hh, hact])
        rw [List.filter_cons_of_pos (by simp [hact]),
          List.filter_cons_of_pos (by simp [hact])]
        simp only [List.map_cons, dictSet, toEntry]
        rw [if_neg hrsid]
        rw [ih hfind]
        rfl

theorem filter_map_deactivate (db : List DbRow) (sid : String)
    (hnd : (db.map DbRow.session_id).Nodup) :
    ((updateFirst db (fun r => decide (r.session_id = sid))
        (fun r => { r with is_active := false })).filter (fun r => r.is_active)).map toEntry
      = dictRemove ((db.filter (fun r => r.is_active)).map toEntry) sid := by
  induction db with
  | nil => rfl
  | cons r rest ih =>
    simp only [List.map_cons, List.nodup_cons] at hnd
    have hnorest : ∀ x ∈ rest, x.session_id ≠ r.session_id := by
      intro x hx hxx
      exact hnd.1 (by rw [← hxx]; exact List.mem_map_of_mem DbRow.session_id hx)
    by_cases hsid : r.session_id = sid
    · simp only [updateFirst]
      rw [if_pos (by simp [hsid])]
      rw [List.filter_cons_of_neg (by simp)]
      cases hact : r.is_active with
      | true =>
        rw [List.filter_cons_of_pos (by simp [hact]), List.map_cons]
        simp only [dictRemove, toEntry]
        rw [if_pos hsid]
      | false =>
        rw [List.filter_cons_of_neg (by simp [hact])]
        have hnok : ∀ e ∈ (rest.filter (fun x => x.is_active)).map toEntry, e.1 ≠ sid := by
          intro e he hek
          obtain ⟨x, hxmem, hxe⟩ := List.mem_map.mp he
          have hxs : x.session_id = sid := by rw [← hxe] at hek; exact hek
          exact hnorest x (List.mem_filter.mp hxmem).1 (by rw [hxs, hsid])
        rw [dictRemove_of_no_key _ _ hnok]
    · simp only [updateFirst]
      rw [if_neg (by simp [hsid])]
      cases hact : r.is_active with
      | true =>
        rw [List.filter_cons_of_pos (by simp [hact]),
          List.filter_cons_of_pos (by simp [hact]), List.map_cons, List.map_cons]
        simp only [dictRemove, toEntry]
        rw [if_neg hsid]
        rw [ih hnd.2]
      | false =>
        rw [List.filter_cons_of_neg (by simp [hact]),
          List.filter_cons_of_neg (by simp [hact])]
        exact ih hnd.2

theorem filter_map_deactivate_all (db : List DbRow) (p : String) :
    ((db.map (fun r =>
        if r.user_email = p ∧ r.is_active = true then { r with is_active := false }
        else r)).filter (fun r => r.is_active)).map toEntry
      = ((db.filter (fun r => r.is_active)).map toEntry).filter
          (fun e => ! decide (e.2.user_email = p)) := by
  induction db with
  | nil => rfl
  | cons r rest ih =>
    simp only [List.map_cons]
    by_cases hc : r.user_email = p ∧ r.is_active = true
    · rw [if_pos hc]
      rw [List.filter_cons_of_neg (by simp)]
      rw [List.filter_cons_of_pos (by simp [hc.2]), List.map_cons]
      rw [List.filter_cons_of_neg (by simp [toEntry, hc.1])]
      exact ih
    · rw [if_neg hc]
      cases hact : r.is_active with
      | false =>
        rw [List.filter_cons_of_neg (by simp [hact]),
          List.filter_cons_of_neg (by simp [hact])]
        exact ih
      | true =>
        have hem : ¬ (r.user_email = p) := fun hh => hc ⟨hh, hact⟩
        rw [List.filter_cons_of_pos (by simp [hact]),
          List.filter_cons_of_pos (by simp [hact]), List.map_cons, List.map_cons,
          List.filter_cons_of_pos (by simp [toEntry, hem])]
        rw [ih]

theorem count_active_email (db : List DbRow) (p : String) :
    (((db.filter (fun r => r.is_active)).map toEntry).filter
        (fun e => decide (e.2.user_email = p))).length
      = (db.filter (fun r => decide (r.user_email = p) && r.is_active)).length := by
  induction db with
  | nil => rfl
  | cons r rest ih =>
    cases hact : r.is_active with
    | false =>
      rw [List.filter_cons_of_neg (by simp [hact]),
        List.filter_cons_of_neg (by simp [hact])]
      exact ih
    | true =>
      rw [List.filter_cons_of_pos (by simp [hact]), List.map_cons]
      by_cases hem : r.user_email = p
      · rw [List.filter_cons_of_pos (by simp [toEntry, hem]),
          List.filter_cons_of_pos (by simp [hem, hact])]
        simp only [List.length_cons, ih]
      · rw [List.filter_cons_of_neg (by simp [toEntry, hem]),
          List.filter_cons_of_neg (by simp [hem])]
        exact ih

theorem user_sessions_image (db : List DbRow) (now : Nat) (p : String) (lc : Nat)
    (hunexp : ∀ r ∈ db, r.is_active = true → now ≤ r.expires_at) :
    memUserSessions ⟨(db.filter (fun r => r.is_active)).map toEntry, lc⟩ now p
      = dbUserSessions db now p := by
  simp only [memUserSessions, dbUserSessions]
  induction db with
  | nil => rfl
  | cons r rest ih =>
    have ihh := ih (fun x hx ha => hunexp x (List.mem_cons_of_mem r hx) ha)
    cases hact : r.is_active with
    | false =>
      rw [List.filter_cons_of_neg (by simp [hact]),
        List.filter_cons_of_neg (by simp [hact])]
      exact ihh
    | true =>
      have hex : now ≤ r.expires_at := hunexp r (List.mem_cons_self r rest) hact
      rw [List.filter_cons_of_pos (by simp [hact]), List.map_cons]
      by_cases hem : r.user_email = p
      · rw [List.filter_cons_of_pos (by simp [toEntry, hem, hex]),
          List.filter_cons_of_pos (by simp [hem, hact]),
          List.filter_cons_of_pos (by simp [DbRow.is_expired, Nat.not_lt.mpr hex]),
          List.map_cons, List.map_cons]
        rw [ihh]
        rfl
      · rw [List.filter_cons_of_neg (by simp [toEntry, hem]),
          List.filter_cons_of_neg (by simp [hem])]
        exact ihh

theorem dbCleanup_eq_self (db : List DbRow) (now : Nat)
    (h : ∀ r ∈ db, r.is_active = true → now ≤ r.expires_at) :
    dbCleanup db now = db := by
  apply map_id_of_eq
  intro r hr
  rw [if_neg]
  rintro ⟨h1, h2⟩
  exact absurd h1 (Nat.not_lt.mpr (h r hr h2))

theorem memCleanup_now (s : List (String × MemRecord)) (now : Nat) :
    memCleanup ⟨s, now⟩ now = ⟨s, now⟩ := by
  simp [memCleanup]

theorem image_key_mem (db : List DbRow) (e : String × MemRecord)
    (he : e ∈ (db.filter (fun r => r.is_active)).map toEntry) :
    e.1 ∈ db.map DbRow.session_id := by
  obtain ⟨x, hxmem, hxe⟩ := List.mem_map.mp he
  have : e.1 = x.session_id := by rw [← hxe]; rfl
  rw [this]
  exact List.mem_map_of_mem DbRow.session_id (List.mem_filter.mp hxmem).1

theorem map_eq_map_of_eq {α β : Type} (l : List α) (f g : α → β)
    (h : ∀ x ∈ l, f x = g x) : l.map f = l.map g := by
  induction l with
  | nil => rfl
  | cons a t ih =>
    simp only [List.map_cons]
    rw [h a (List.mem_cons_self a t), ih (fun x hx => h x (List.mem_cons_of_mem a hx))]

theorem sim_create (mem : MemStore) (db : List DbRow) (now ctr : Nat)
    (inv : SimInv mem db now ctr) (email : String) (ttl : Option Nat) :
    (memCreate mem now (genId ctr) email (ttl.getD 30)).1
      = (dbCreate db now (genId ctr) email ttl).1 ∧
    SimInv (memCreate mem now (genId ctr) email (ttl.getD 30)).2
      (dbCreate db now (genId ctr) email ttl).2 now (ctr + 1) := by
  have hnewid : ∀ r ∈ db, r.session_id ≠ genId ctr := by
    intro r hr hh
    obtain ⟨k, hk, hks⟩ := inv.fresh r hr
    rw [hks] at hh
    exact absurd (genId_injective k ctr hh) (Nat.ne_of_lt hk)
  have hlkn : dictLookup mem.sessions (genId ctr) = none := by
    rw [← inv.proj]
    apply dictLookup_eq_none
    intro e he hek
    obtain ⟨x, hxmem, hxe⟩ := List.mem_map.mp he
    have : x.session_id = genId ctr := by rw [← hxe] at hek; exact hek
    exact hnewid x (List.mem_filter.mp hxmem).1 this
  have hmemlc : mem = ⟨mem.sessions, now⟩ := by
    rw [← inv.cleanupGate]
  have hunex2 : ∀ r ∈ db ++ [(⟨genId ctr, email, now, now + 60 * ttl.getD 30, now, true⟩ : DbRow)],
      r.is_active = true → now ≤ r.expires_at := by
    intro r hr ha
    rcases List.mem_append.mp hr with h | h
    · exact inv.unexpired r h ha
    · rw [List.mem_singleton.mp h]
      exact Nat.le_add_right now _
  constructor
  · rfl
  · have hdbc : (dbCreate db now (genId ctr) email ttl).2
        = db ++ [⟨genId ctr, email, now, now + 60 * ttl.getD 30, now, true⟩] := by
      simp only [dbCreate]
      exact dbCleanup_eq_self _ now hunex2
    have hmemc : (memCreate mem now (genId ctr) email (ttl.getD 30)).2
        = ⟨mem.sessions ++ [(genId ctr, ⟨email, now, now + 60 * ttl.getD 30, now⟩)], now⟩ := by
      simp only [memCreate]
      rw [dictSet_append_of_lookup_none _ _ _ hlkn]
      rw [hmemlc]
      exact memCleanup_now _ now
    rw [hdbc, hmemc]
    refine ⟨?_, ?_, hunex2, ?_, rfl⟩
    · rw [List.filter_append, List.map_append,
        List.filter_cons_of_pos (by simp), inv.proj]
      rfl
    · intro r hr
      rcases List.mem_append.mp hr with h | h
      · obtain ⟨k, hk, hks⟩ := inv.fresh r h
        exact ⟨k, Nat.lt_succ_of_lt hk, hks⟩
      · rw [List.mem_singleton.mp h]
        exact ⟨ctr, Nat.lt_succ_self ctr, rfl⟩
    · rw [List.map_append]
      rw [List.nodup_append]
      refine ⟨inv.nodup, List.nodup_singleton _, ?_⟩
      intro x hx hx2
      rw [List.mem_singleton.mp hx2] at hx
      obtain ⟨r, hrmem, hrs⟩ := List.mem_map.mp hx
      exact hnewid r hrmem hrs

theorem sim_get (mem : MemStore) (db : List DbRow) (now ctr : Nat)
    (inv : SimInv mem db now ctr) (sid : String) :
    eraseSidKey (OpOut.found ((memGet mem now sid).1.map memRecordToDict))
      = eraseSidKey (OpOut.found (dbGet db now sid).1) ∧
    SimInv (memGet mem now sid).2 (dbGet db now sid).2 now ctr := by
  by_cases hsid : sid = ""
  · subst hsid
    have hm : memGet mem now "" = (none, mem) := by simp [memGet]
    have hd : dbGet db now "" = (none, db) := by simp [dbGet]
    rw [hm, hd]
    exact ⟨rfl, inv⟩
  · have hlk : dictLookup mem.sessions sid
        = (db.find? (fun r => decide (r.session_id = sid) && r.is_active)).map
            (fun r => (toEntry r).2) := by
      rw [← inv.proj]
      exact dictLookup_image db sid
    cases hfind : db.find? (fun r => decide (r.session_id = sid) && r.is_active) with
    | none =>
      rw [hfind] at hlk
      simp only [Option.map_none'] at hlk
      have hm : memGet mem now sid = (none, mem) := by simp [memGet, hsid, hlk]
      have hd : dbGet db now sid = (none, db) := by simp [dbGet, hsid, hfind]
      rw [hm, hd]
      exact ⟨rfl, inv⟩
    | some row =>
      have hprop := List.find?_some hfind
      simp only [Bool.and_eq_true, decide_eq_true_eq] at hprop
      have hrmem := List.mem_of_find?_eq_some hfind
      have hexp : now ≤ row.expires_at := inv.unexpired row hrmem hprop.2
      have hlks : dictLookup mem.sessions sid = some (toEntry row).2 := by
        rw [hlk, hfind]
        rfl
      have hngt : ¬ (now > (toEntry row).2.expires_at) := Nat.not_lt.mpr hexp
      have hm : memGet mem now sid
          = (some { (toEntry row).2 with last_accessed := now },
             { mem with sessions := dictSet mem.sessions sid { (toEntry row).2 with last_accessed := now } }) := by
        simp [memGet, hsid, hlks, hngt]
      have hdx : row.is_expired now = false := by
        simp [DbRow.is_expired, Nat.not_lt.mpr hexp]
      have hd : dbGet db now sid
          = (some ⟨row.user_email, row.created_at, row.expires_at, now, some row.session_id⟩,
             updateFirst db (fun r => decide (r.session_id = sid) && r.is_active)
               (fun r => { r with last_accessed := now })) := by
        simp [dbGet, hsid, hfind, hdx]
      rw [hm, hd]
      refine ⟨rfl, ?_, ?_, ?_, ?_, inv.cleanupGate⟩
      · show ((updateFirst db _ _).filter (fun r => r.is_active)).map toEntry
          = dictSet mem.sessions sid { (toEntry row).2 with last_accessed := now }
        rw [← inv.proj]
        exact filter_map_updateFirst db sid (fun r => { r with last_accessed := now })
          (fun r => rfl) (fun r => rfl) row hfind
      · intro r' hr'
        rcases mem_updateFirst db _ _ r' hr' with h | ⟨r0, hr0, _, heq⟩
        · exact inv.fresh r' h
        · obtain ⟨k, hk, hks⟩ := inv.fresh r0 hr0
          exact ⟨k, hk, by rw [heq]; exact hks⟩
      · intro r' hr' ha
        rcases mem_updateFirst db _ _ r' hr' with h | ⟨r0, hr0, _, heq⟩
        · exact inv.unexpired r' h ha
        · subst heq
          exact inv.unexpired r0 hr0 ha
      · show ((updateFirst db _ _).map DbRow.session_id).Nodup
        rw [updateFirst_map_sid db (fun r => decide (r.session_id = sid) && r.is_active)
          (fun r => { r with last_accessed := now }) (fun r => rfl)]
        exact inv.nodup

theorem sim_extend (mem : MemStore) (db : List DbRow) (now ctr : Nat)
    (inv : SimInv mem db now ctr) (sid : String) (m : Nat) :
    (memExtend mem now sid m).1 = (dbExtend db now sid m).1 ∧
    SimInv (memExtend mem now sid m).2 (dbExtend db now sid m).2 now ctr := by
  have hlk : dictLookup mem.sessions sid
      = (db.find? (fun r => decide (r.session_id = sid) && r.is_active)).map
          (fun r => (toEntry r).2) := by
    rw [← inv.proj]
    exact dictLookup_image db sid
  by_cases hsid : sid = ""
  · subst hsid
    have hfn : db.find? (fun r => decide (r.session_id = "") && r.is_active) = none := by
      apply List.find?_eq_none.mpr
      intro r hr
      obtain ⟨k, _, hks⟩ := inv.fresh r hr
      simp [hks, genId_ne_empty k]
    rw [hfn] at hlk
    simp only [Option.map_none'] at hlk
    have hm : memExtend mem now "" m = (false, mem) := by simp [memExtend, hlk]
    have hd : dbExtend db now "" m = (false, db) := by simp [dbExtend]
    rw [hm, hd]
    exact ⟨rfl, inv⟩
  · cases hfind : db.find? (fun r => decide (r.session_id = sid) && r.is_active) with
    | none =>
      rw [hfind] at hlk
      simp only [Option.map_none'] at hlk
      have hm : memExtend mem now sid m = (false, mem) := by simp [memExtend, hlk]
      have hd : dbExtend db now sid m = (false, db) := by simp [dbExtend, hsid, hfind]
      rw [hm, hd]
      exact ⟨rfl, inv⟩
    | some row =>
      have hprop := List.find?_some hfind
      simp only [Bool.and_eq_true, decide_eq_true_eq] at hprop
      have hrmem := List.mem_of_find?_eq_some hfind
      have hexp : now ≤ row.expires_at := inv.unexpired row hrmem hprop.2
      have hlks : dictLookup mem.sessions sid = some (toEntry row).2 := by
        rw [hlk, hfind]
        rfl
      have hm : memExtend mem now sid m
          = (true,
             { mem with sessions := dictSet mem.sessions sid { (toEntry row).2 with expires_at := now + 60 * m, last_accessed := now } }) := by
        simp [memExtend, hlks]
      have hdx : row.is_expired now = false := by
        simp [DbRow.is_expired, Nat.not_lt.mpr hexp]
      have hd : dbExtend db now sid m
          = (true,
             updateFirst db (fun r => decide (r.session_id = sid) && r.is_active)
               (fun r => r.extend_session now m)) := by
        simp [dbExtend, hsid, hfind, hdx]
      rw [hm, hd]
      refine ⟨rfl, ?_, ?_, ?_, ?_, inv.cleanupGate⟩
      · show ((updateFirst db _ _).filter (fun r => r.is_active)).map toEntry
          = dictSet mem.sessions sid { (toEntry row).2 with expires_at := now + 60 * m, last_accessed := now }
        rw [← inv.proj]
        exact filter_map_updateFirst db sid (fun r => r.extend_session now m)
          (fun r => rfl) (fun r => rfl) row hfind
      · intro r' hr'
        rcases mem_updateFirst db _ _ r' hr' with h | ⟨r0, hr0, _, heq⟩
        · exact inv.fresh r' h
        · obtain ⟨k, hk, hks⟩ := inv.fresh r0 hr0
          exact ⟨k, hk, by rw [heq]; exact hks⟩
      · intro r' hr' ha
        rcases mem_updateFirst db _ _ r' hr' with h | ⟨r0, hr0, _, heq⟩
        · exact inv.unexpired r' h ha
        · subst heq
          show now ≤ now + 60 * m
          exact Nat.le_add_right now _
      · show ((updateFirst db _ _).map DbRow.session_id).Nodup
        rw [updateFirst_map_sid db (fun r => decide (r.session_id = sid) && r.is_active)
          (fun r => r.extend_session now m) (fun r => rfl)]
        exact inv.nodup

theorem sim_revoke (mem : MemStore) (db : List DbRow) (now ctr : Nat)
    (inv : SimInv mem db now ctr) (sid : String)
    (hdead : dbHasDeadRow db sid = false) :
    (memDelete mem sid).1 = (dbDelete db sid).1 ∧
    SimInv (memDelete mem sid).2 (dbDelete db sid).2 now ctr := by
  have hnodead : ∀ r ∈ db, r.session_id = sid → r.is_active = true := by
    intro r hr hs
    by_contra hna
    have hany : db.any (fun r => decide (r.session_id = sid) && ! r.is_active) = true := by
      apply List.any_eq_true.mpr
      refine ⟨r, hr, ?_⟩
      simp [hs, Bool.not_eq_true r.is_active ▸ hna]
    rw [dbHasDeadRow] at hdead
    rw [hany] at hdead
    exact Bool.noConfusion hdead
  have hlk : dictLookup mem.sessions sid
      = (db.find? (fun r => decide (r.session_id = sid) && r.is_active)).map
          (fun r => (toEntry r).2) := by
    rw [← inv.proj]
    exact dictLookup_image db sid
  cases hfind : db.find? (fun r => decide (r.session_id = sid) && r.is_active) with
  | some row =>
    have hprop := List.find?_some hfind
    simp only [Bool.and_eq_true, decide_eq_true_eq] at hprop
    have hrmem := List.mem_of_find?_eq_some hfind
    have hsid : sid ≠ "" := by
      obtain ⟨k, _, hks⟩ := inv.fresh row hrmem
      rw [← hprop.1, hks]
      exact genId_ne_empty k
    have hlks : dictLookup mem.sessions sid = some (toEntry row).2 := by
      rw [hlk, hfind]
      rfl
    have hm : memDelete mem sid
        = (true, { mem with sessions := dictRemove mem.sessions sid }) := by
      simp [memDelete, hlks]
    have hfs : (db.find? (fun r => decide (r.session_id = sid))).isSome := by
      rw [List.find?_isSome]
      exact ⟨row, hrmem, by simp [hprop.1]⟩
    obtain ⟨row', hrow'⟩ := Option.isSome_iff_exists.mp hfs
    have hd : dbDelete db sid
        = (true, updateFirst db (fun r => decide (r.session_id = sid))
            (fun r => { r with is_active := false })) := by
      simp [dbDelete, hsid, hrow']
    rw [hm, hd]
    refine ⟨rfl, ?_, ?_, ?_, ?_, inv.cleanupGate⟩
    · show ((updateFirst db _ _).filter (fun r => r.is_active)).map toEntry
        = dictRemove mem.sessions sid
      rw [← inv.proj]
      exact filter_map_deactivate db sid inv.nodup
    · intro r' hr'
      rcases mem_updateFirst db _ _ r' hr' with h | ⟨r0, hr0, _, heq⟩
      · exact inv.fresh r' h
      · obtain ⟨k, hk, hks⟩ := inv.fresh r0 hr0
        exact ⟨k, hk, by rw [heq]; exact hks⟩
    · intro r' hr' ha
      rcases mem_updateFirst db _ _ r' hr' with h | ⟨r0, hr0, _, heq⟩
      · exact inv.unexpired r' h ha
      · subst heq
        simp at ha
    · show ((updateFirst db _ _).map DbRow.session_id).Nodup
      rw [updateFirst_map_sid db (fun r => decide (r.session_id = sid))
        (fun r => { r with is_active := false }) (fun r => rfl)]
      exact inv.nodup
  | none =>
    rw [hfind] at hlk
    simp only [Option.map_none'] at hlk
    have hm : memDelete mem sid = (false, mem) := by simp [memDelete, hlk]
    by_cases hsid : sid = ""
    · subst hsid
      have hd : dbDelete db "" = (false, db) := by simp [dbDelete]
      rw [hm, hd]
      exact ⟨rfl, inv⟩
    · have hfn : db.find? (fun r => decide (r.session_id = sid)) = none := by
        apply List.find?_eq_none.mpr
        intro r hr h
        have hrs : r.session_id = sid := by simpa using h
        have hra := hnodead r hr hrs
        exact (List.find?_eq_none.mp hfind r hr) (by simp [hrs, hra])
      have hd : dbDelete db sid = (false, db) := by simp [dbDelete, hsid, hfn]
      rw [hm, hd]
      exact ⟨rfl, inv⟩

theorem sim_list (mem : MemStore) (db : List DbRow) (now ctr : Nat)
    (inv : SimInv mem db now ctr) (p : String) :
    memUserSessions mem now p = dbUserSessions db now p := by
  have h := user_sessions_image db now p mem.last_cleanup inv.unexpired
  rw [← h]
  unfold memUserSessions
  rw [inv.proj]

theorem map_sid_map_g (db : List DbRow) (g : DbRow → DbRow)
    (h : ∀ r, (g r).session_id = r.session_id) :
    (db.map g).map (fun r => r.session_id) = db.map (fun r => r.session_id) := by
  induction db with
  | nil => rfl
  | cons r rest ih => simp only [List.map_cons, h r, ih]

theorem sim_revokeAll (mem : MemStore) (db : List DbRow) (now ctr : Nat)
    (inv : SimInv mem db now ctr) (p : String) :
    (memDeleteUser mem p).1 = (dbDeleteAllUser db p).1 ∧
    SimInv (memDeleteUser mem p).2 (dbDeleteAllUser db p).2 now ctr := by
  have hsidg : ∀ r : DbRow,
      ((fun r => if r.user_email = p ∧ r.is_active = true then { r with is_active := false }
        else r) r).session_id = r.session_id := by
    intro r
    by_cases hc : r.user_email = p ∧ r.is_active = true
    · simp [hc]
    · simp [hc]
  constructor
  · show (mem.sessions.filter (fun e => decide (e.2.user_email = p))).length
      = (db.filter (fun r => decide (r.user_email = p) && r.is_active)).length
    rw [← inv.proj]
    exact count_active_email db p
  · refine ⟨?_, ?_, ?_, ?_, inv.cleanupGate⟩
    · show (((db.map _).filter (fun r => r.is_active)).map toEntry)
        = mem.sessions.filter (fun e => ! decide (e.2.user_email = p))
      rw [← inv.proj]
      exact filter_map_deactivate_all db p
    · intro r' hr'
      obtain ⟨r0, hr0, heq⟩ := List.mem_map.mp hr'
      obtain ⟨k, hk, hks⟩ := inv.fresh r0 hr0
      refine ⟨k, hk, ?_⟩
      rw [← heq, hsidg r0]
      exact hks
    · intro r' hr' ha
      obtain ⟨r0, hr0, heq⟩ := List.mem_map.mp hr'
      by_cases hc : r0.user_email = p ∧ r0.is_active = true
      · rw [if_pos hc] at heq
        rw [← heq] at ha
        simp at ha
      · rw [if_neg hc] at heq
        rw [← heq]
        rw [← heq] at ha
        exact inv.unexpired r0 hr0 ha
    · show ((db.map (fun r =>
          if r.user_email = p ∧ r.is_active = true then { r with is_active := false }
          else r)).map (fun r => r.session_id)).Nodup
      rw [map_sid_map_g db _ hsidg]
      exact inv.nodup

theorem sim_step (mem : MemStore) (db : List DbRow) (now ctr : Nat)
    (inv : SimInv mem db now ctr) (op : StoreOp)
    (hok : ∀ sid, op = StoreOp.revoke sid → dbHasDeadRow db sid = false) :
    eraseSidKey (memStep mem now ctr op).1 = eraseSidKey (dbStep db now ctr op).1 ∧
    (memStep mem now ctr op).2.2 = (dbStep db now ctr op).2.2 ∧
    SimInv (memStep mem now ctr op).2.1 (dbStep db now ctr op).2.1 now
      (dbStep db now ctr op).2.2 := by
  cases op with
  | create email ttl =>
    have h := sim_create mem db now ctr inv email ttl
    exact ⟨rfl, rfl, h.2⟩
  | get sid =>
    have h := sim_get mem db now ctr inv sid
    exact ⟨h.1, rfl, h.2⟩
  | extend sid m =>
    have h := sim_extend mem db now ctr inv sid m
    exact ⟨congrArg (fun b => eraseSidKey (OpOut.flag b)) h.1, rfl, h.2⟩
  | revoke sid =>
    have hdead : dbHasDeadRow db sid = false := hok sid rfl
    have h := sim_revoke mem db now ctr inv sid hdead
    exact ⟨congrArg (fun b => eraseSidKey (OpOut.flag b)) h.1, rfl, h.2⟩
  | listByPrincipal p =>
    have h := sim_list mem db now ctr inv p
    exact ⟨congrArg (fun l => eraseSidKey (OpOut.summaries l)) h, rfl, inv⟩
  | revokeAll p =>
    have h := sim_revokeAll mem db now ctr inv p
    exact ⟨congrArg (fun n => eraseSidKey (OpOut.count n)) h.1, rfl, h.2⟩

theorem sim_run (now : Nat) (ops : List StoreOp) :
    ∀ (mem : MemStore) (db : List DbRow) (ctr : Nat), SimInv mem db now ctr →
      noReRevoke now db ctr ops = true →
      ((memRun now mem ctr ops).1).map eraseSidKey
        = ((dbRun now db ctr ops).1).map eraseSidKey := by
  induction ops with
  | nil =>
    intro mem db ctr _ _
    rfl
  | cons op rest ih =>
    intro mem db ctr inv hok
    simp only [noReRevoke, Bool.and_eq_true] at hok
    have hg : ∀ sid, op = StoreOp.revoke sid → dbHasDeadRow db sid = false := by
      intro sid hop
      subst hop
      have := hok.1
      simpa using this
    have hstep := sim_step mem db now ctr inv op hg
    have hok2 : noReRevoke now (dbStep db now ctr op).2.1 (dbStep db now ctr op).2.2 rest
        = true := hok.2
    have hrest := ih (memStep mem now ctr op).2.1 (dbStep db now ctr op).2.1
      (dbStep db now ctr op).2.2 hstep.2.2 hok2
    show eraseSidKey (memStep mem now ctr op).1
        :: ((memRun now (memStep mem now ctr op).2.1 (memStep mem now ctr op).2.2 rest).1).map
            eraseSidKey
      = eraseSidKey (dbStep db now ctr op).1
        :: ((dbRun now (dbStep db now ctr op).2.1 (dbStep db now ctr op).2.2 rest).1).map
            eraseSidKey
    rw [hstep.1, hstep.2.1]
    exact congrArg (List.cons _) hrest

/-- C2, counterexample: under one fixed clock and the same id supply the two
backends return different results to the caller: revoking the same id twice
answers true then false in the volatile backend but true then true in the
persistent one, and the dict a successful get returns carries a `session_id`
key only in the persistent backend. -/
theorem c2_counterexample_backends_disagree :
    (memRun 1000 ⟨[], 1000⟩ 0
        [StoreOp.create "a" none, StoreOp.revoke (genId 0), StoreOp.revoke (genId 0)]).1
      ≠ (dbRun 1000 [] 0
        [StoreOp.create "a" none, StoreOp.revoke (genId 0), StoreOp.revoke (genId 0)]).1 ∧
    (memRun 1000 ⟨[], 1000⟩ 0 [StoreOp.create "a" none, StoreOp.get (genId 0)]).1
      ≠ (dbRun 1000 [] 0 [StoreOp.create "a" none, StoreOp.get (genId 0)]).1 := by
  exact ⟨by decide, by decide⟩

/-- C2, amended: starting from empty stores under one fixed clock and the same
fresh-id supply, the two backends return identical results to the caller for
every sequence of create / get / extend / revoke / list-by-principal /
revoke-all-by-principal operations, provided (a) no revoke targets an id whose
record is already dead but still stored, and (b) the results of successful
gets are compared on the four shared record fields (the persistent backend's
dict additionally echoes the session id). -/
theorem c2_amended_backends_agree (now : Nat) (ops : List StoreOp)
    (h : noReRevoke now [] 0 ops = true) :
    ((memRun now ⟨[], now⟩ 0 ops).1).map eraseSidKey
      = ((dbRun now [] 0 ops).1).map eraseSidKey :=
  sim_run now ops ⟨[], now⟩ [] 0
    ⟨rfl, by intro r hr; exact absurd hr (List.not_mem_nil r),
     by intro r hr; exact absurd hr (List.not_mem_nil r), List.nodup_nil, rfl⟩ h

/-- Witness for C2 on a concrete six-operation sequence exercising every
operation of the contract. -/
theorem c2_witness :
    noReRevoke 1000 [] 0
      [StoreOp.create "a" none, StoreOp.get (genId 0), StoreOp.extend (genId 0) 60,
        StoreOp.listByPrincipal "a", StoreOp.revoke (genId 0), StoreOp.revokeAll "a"] = true ∧
    ((memRun 1000 ⟨[], 1000⟩ 0
        [StoreOp.create "a" none, StoreOp.get (genId 0), StoreOp.extend (genId 0) 60,
          StoreOp.listByPrincipal "a", StoreOp.revoke (genId 0), StoreOp.revokeAll "a"]).1).map
        eraseSidKey
      = ((dbRun 1000 [] 0
        [StoreOp.create "a" none, StoreOp.get (genId 0), StoreOp.extend (genId 0) 60,
          StoreOp.listByPrincipal "a", StoreOp.revoke (genId 0), StoreOp.revokeAll "a"]).1).map
        eraseSidKey :=
  ⟨by decide,
   c2_amended_backends_agree 1000
     [StoreOp.create "a" none, StoreOp.get (genId 0), StoreOp.extend (genId 0) 60,
       StoreOp.listByPrincipal "a", StoreOp.revoke (genId 0), StoreOp.revokeAll "a"]
     (by decide)⟩
